import Mathlib

/-
Verification of the knowledge-base restructure pipeline (`src/crew.py`).

The file shallowly embeds the pure core of `crew.py`: the XML-navigation
helpers (`get_text_from_path`, `get_nth_section_text`), content extraction
(`extract_content`), template filling (`fill_template` via Python's
`str.format`), the two serializers (`save_markdown`, `dict_to_xml`), the
per-page loop (`process_pages`) and the top-level build loop over
`structure["knowledge_base"]`.

Modelling conventions, stated once:
* Python strings that only flow through `split("/")`, `strip()`,
  `replace("-", " ")` and `title()` are modelled through structural Lean
  helpers (`splitSlash`, `pyStrip`, `replaceDashSpace`, `pyTitle`) mirroring
  the CPython behaviour on ASCII input.
* An `xml.etree.ElementTree` element is a tag, an ordered attribute list,
  an optional text (Python `None` becomes `none`) and a list of direct
  children.  Tail text is never read or written by `crew.py` and is not
  modelled.
* The external document-search capability (`XMLSearchTool.search`) together
  with `ET.fromstring` is modelled as a function
  `String → Option (Option Element)`: `none` means the search returned a
  falsy result, `some none` means the raw text failed to parse
  (`ET.ParseError`, caught by `parse_xml_string`), `some (some root)` is a
  successfully parsed document root.
* A raised Python exception is an `Except.error` value; the per-page loop
  propagates it exactly where the Python call stack would.
-/

namespace KB

/-- Auxiliary structural recursion behind `splitSlash`. -/
def splitSlashAux : List Char → List Char → List String
  | [], acc => [String.mk acc.reverse]
  | c :: rest, acc =>
    if c = '/' then String.mk acc.reverse :: splitSlashAux rest []
    else splitSlashAux rest (c :: acc)

/-- Model of Python `s.split("/")`: e.g. `""` gives `[""]`, `"a/b"` gives
`["a", "b"]`, `"a/"` gives `["a", ""]`. -/
def splitSlash (s : String) : List String :=
  splitSlashAux s.data []

/-- Characters removed by Python `str.strip()` (ASCII whitespace). -/
def isPyWhitespace (c : Char) : Bool :=
  c = ' ' || c = '\t' || c = '\n' || c = '\r' || c = '\x0b' || c = '\x0c'

/-- Model of Python `s.strip()`. -/
def pyStrip (s : String) : String :=
  String.mk (((s.data.dropWhile isPyWhitespace).reverse.dropWhile isPyWhitespace).reverse)

/-- Model of Python `s.replace("-", " ")` (single-character replacement). -/
def replaceDashSpace (s : String) : String :=
  String.mk (s.data.map (fun c => if c = '-' then ' ' else c))

/-- Accumulator step of `pyTitle`: the flag records whether the previous
character was alphabetic (inside a word). -/
def titleStep (acc : List Char × Bool) (c : Char) : List Char × Bool :=
  if c.isAlpha then (acc.1 ++ [if acc.2 then c.toLower else c.toUpper], true)
  else (acc.1 ++ [c], false)

/-- Model of Python `s.title()` on ASCII input: the first letter of every
maximal alphabetic run is uppercased, the rest lowercased. -/
def pyTitle (s : String) : String :=
  String.mk (s.data.foldl titleStep ([], false)).1

/-- Join a list of strings with a separator (used by the Python `repr`
model for lists and dicts). -/
def joinSep (sep : String) : List String → String
  | [] => ""
  | [x] => x
  | x :: y :: rest => x ++ sep ++ joinSep sep (y :: rest)

/-- Model of an `xml.etree.ElementTree` element (see header comment). -/
inductive Element where
  | mk (tag : String) (attrs : List (String × String)) (text : Option String)
      (children : List Element)

def Element.tag : Element → String
  | .mk t _ _ _ => t

def Element.attrs : Element → List (String × String)
  | .mk _ a _ _ => a

def Element.text : Element → Option String
  | .mk _ _ tx _ => tx

def Element.children : Element → List Element
  | .mk _ _ _ cs => cs

/-- Model of `elem.set(k, v)`: dict-style assignment into the attribute
list (replace the existing binding, else append). -/
def Element.setAttr (e : Element) (k v : String) : Element :=
  match e with
  | .mk t a tx cs =>
    if (a.lookup k).isSome then
      .mk t (a.map (fun kv => if kv.1 == k then (kv.1, v) else kv)) tx cs
    else
      .mk t (a ++ [(k, v)]) tx cs

/-- Model of `elem.find(tag)` for a plain tag name: first direct child with
that tag.  `ElementPath` pattern syntax (`*`, `.`, `//`, predicates) is not
modelled; the claims about `get_text_from_path` are stated for plain-name
segments only. -/
def findChild (e : Element) (t : String) : Option Element :=
  e.children.find? (fun c => c.tag == t)

/-- Model of `root.findall(tag)` for a plain tag name: all direct children
with that tag, in document order (flat, not recursive). -/
def findAll (e : Element) (t : String) : List Element :=
  e.children.filter (fun c => c.tag == t)

/-- Characterisation of a plain tag segment, to which the `find` model
applies (nonempty, no `ElementPath` special characters). -/
def isPlainTag (s : String) : Bool :=
  !s.isEmpty && s.data.all (fun c =>
    c ≠ '*' && c ≠ '.' && c ≠ '/' && c ≠ '[' && c ≠ ']' && c ≠ '@')

/-- Embedding of `parse_xml_string` (crew.py lines 43-48).  A raw XML
string is represented by its parse result, so the function is the identity
on the representation: `ET.fromstring` succeeding gives `some root`, an
`ET.ParseError` is caught and `None` is returned, i.e. `none`. -/
def parse_xml_string (raw : Option Element) : Option Element :=
  raw

/-- Loop of `get_text_from_path` (crew.py lines 51-56): starting from the
root, descend through one `find` per path segment; once the current node is
`None` it stays `None` (the Python loop breaks). -/
def descendPath (e : Element) (parts : List String) : Option Element :=
  parts.foldl
    (fun t part =>
      match t with
      | some x => findChild x part
      | none => none)
    (some e)

/-- Embedding of `get_text_from_path` (crew.py lines 50-57).  Returns the
stripped text of the node reached by following the slash-separated path,
and the placeholder `"[<path> not found]"` when a segment is missing or the
final node's text is `None` or `""` (Python falsy). -/
def get_text_from_path (elem : Element) (path : String) : String :=
  match descendPath elem (splitSlash path) with
  | some target =>
    match target.text with
    | some s => if s ≠ "" then pyStrip s else "[" ++ path ++ " not found]"
    | none => "[" ++ path ++ " not found]"
  | none => "[" ++ path ++ " not found]"

/-- Embedding of `get_nth_section_text` (crew.py lines 59-63) for `n ≥ 1`
(the code calls it with 1 and 2; Python's negative indexing at `n = 0` is
outside every claim and not modelled).  When at least `n` direct `section`
children exist, the `n`-th (1-indexed) is returned stripped, with falsy
text giving `""`; otherwise the placeholder is returned. -/
def get_nth_section_text (root : Element) (n : Nat) : String :=
  let sections := findAll root "section"
  if n ≤ sections.length then
    match sections.get? (n - 1) with
    | some s =>
      match s.text with
      | some t => if t ≠ "" then pyStrip t else ""
      | none => ""
    | none => ""
  else "[section " ++ Nat.repr n ++ " not found]"

/-- ContentMap: a Python dict from field name to string, modelled as an
insertion-ordered association list (Python dicts preserve insertion order,
and `extract_content` never writes a key twice). -/
abbrev ContentMap := List (String × String)

/-- Derivation of the `page_title` field (crew.py line 74):
`page_id.split("/")[-1].replace("-", " ").title()`. -/
def page_title_of (page_id : String) : String :=
  pyTitle (replaceDashSpace (((splitSlash page_id).getLast?).getD ""))

/-- Embedding of `extract_content` (crew.py lines 65-99).  The search
capability is passed as a function (see header comment); a falsy search
result or a parse failure yields the empty dict, exactly as the code
returns `{}`. -/
def extract_content (search : String → Option (Option Element)) (page_id : String) :
    ContentMap :=
  match search page_id with
  | none => []
  | some raw_xml =>
    match parse_xml_string raw_xml with
    | none => []
    | some root =>
      [("page_title", page_title_of page_id),
       ("introduction", get_text_from_path root "introduction"),
       ("conclusion", get_text_from_path root "conclusion"),
       ("section_1_heading", "Overview"),
       ("section_1_content", get_nth_section_text root 1),
       ("section_2_heading", "Details"),
       ("section_2_content", get_nth_section_text root 2),
       ("faq_1_question", get_text_from_path root "faq/q"),
       ("faq_1_answer", get_text_from_path root "faq/a"),
       ("faq_2_question", "Where does this content come from?"),
       ("faq_2_answer", "This content was extracted from the original XML knowledge base."),
       ("step_1_title", "Step One"),
       ("step_1_content", get_text_from_path root "steps/step1"),
       ("step_2_title", "Step Two"),
       ("step_2_content", get_text_from_path root "steps/step2")]

/-- Fixed key vocabulary of a successfully extracted ContentMap, in the
order `extract_content` builds it. -/
def fixedContentKeys : List String :=
  ["page_title", "introduction", "conclusion",
   "section_1_heading", "section_1_content",
   "section_2_heading", "section_2_content",
   "faq_1_question", "faq_1_answer", "faq_2_question", "faq_2_answer",
   "step_1_title", "step_1_content", "step_2_title", "step_2_content"]

/-- Chunk of a Python format string, as `str.format` interprets it: a run
of literal text or a named replacement field `{name}`.  The templates only
use named fields (spec section 4.3), so positional fields, conversions and
format specs are not modelled; literal chunks are taken nonempty, so the
empty string is the empty chunk list. -/
inductive Fmt where
  | lit : String → Fmt
  | ph : String → Fmt
deriving DecidableEq

/-- Template value: the nested YAML structure `fill_template` walks.  A
string leaf is carried as its parsed format-chunk list; `raw s b` is any
non-string scalar, represented by its `str()` text `s` and its Python
truthiness `b` (the only two facts `crew.py` ever uses about one). -/
inductive TVal where
  | str : List Fmt → TVal
  | raw : String → Bool → TVal
  | list : List TVal → TVal
  | map : List (String × TVal) → TVal

/-- Filled value: the result shape of `fill_template`, identical to `TVal`
except that string leaves are now plain formatted strings. -/
inductive FVal where
  | str : String → FVal
  | raw : String → Bool → FVal
  | list : List FVal → FVal
  | map : List (String × FVal) → FVal

/-- Model of `obj.format(**data)` on a parsed chunk list: fields are
substituted left to right and the first field whose name is absent from
the dict raises `KeyError`, modelled as `Except.error` carrying the
missing name. -/
def formatChunks (data : ContentMap) : List Fmt → Except String String
  | [] => .ok ""
  | .lit s :: rest =>
    match formatChunks data rest with
    | .ok r => .ok (s ++ r)
    | .error e => .error e
  | .ph k :: rest =>
    match data.lookup k with
    | none => .error k
    | some v =>
      match formatChunks data rest with
      | .ok r => .ok (v ++ r)
      | .error e => .error e

mutual
/-- Embedding of `recursive_replace` inside `fill_template` (crew.py lines
110-118): strings are formatted, lists and dicts are rebuilt element by
element, any other leaf passes through; a `KeyError` from `format`
propagates out of the whole recursion. -/
def recursive_replace (data : ContentMap) : TVal → Except String FVal
  | .str cs => (formatChunks data cs).map FVal.str
  | .raw s b => .ok (.raw s b)
  | .list xs => (rrList data xs).map FVal.list
  | .map kvs => (rrMap data kvs).map FVal.map

/-- List case of `recursive_replace`: Python's list comprehension,
left to right, first exception aborts. -/
def rrList (data : ContentMap) : List TVal → Except String (List FVal)
  | [] => .ok []
  | x :: xs =>
    match recursive_replace data x with
    | .error e => .error e
    | .ok v =>
      match rrList data xs with
      | .error e => .error e
      | .ok vs => .ok (v :: vs)

/-- Dict case of `recursive_replace`: keys unchanged, values rebuilt in
insertion order. -/
def rrMap (data : ContentMap) : List (String × TVal) → Except String (List (String × FVal))
  | [] => .ok []
  | (k, x) :: xs =>
    match recursive_replace data x with
    | .error e => .error e
    | .ok v =>
      match rrMap data xs with
      | .error e => .error e
      | .ok vs => .ok ((k, v) :: vs)
end

/-- Embedding of `fill_template` (crew.py lines 109-119). -/
def fill_template (template : TVal) (data : ContentMap) : Except String FVal :=
  recursive_replace data template

/-- Python truthiness of a template value, used by the `if not template:`
guard in `process_pages`: empty string, empty list, empty dict and falsy
scalars are falsy. -/
def isFalsy : TVal → Bool
  | .str cs => cs.isEmpty
  | .raw _ truthy => !truthy
  | .list xs => xs.isEmpty
  | .map kvs => kvs.isEmpty

mutual
/-- Model of Python `repr` on filled values, used only through `str()` on
nested containers (`dict_to_xml` and `save_markdown` stringify values one
level deep, so a nested container is rendered via its `repr`).  String
quoting is modelled with plain single quotes; no claim observes the quoted
form. -/
def pyRepr : FVal → String
  | .str s => "'" ++ s ++ "'"
  | .raw s _ => s
  | .list xs => "[" ++ joinSep ", " (pyReprList xs) ++ "]"
  | .map kvs => "\x7b" ++ joinSep ", " (pyReprMap kvs) ++ "\x7d"

/-- Member reprs of a list value. -/
def pyReprList : List FVal → List String
  | [] => []
  | x :: xs => pyRepr x :: pyReprList xs

/-- Member reprs of a dict value (`'key': value`). -/
def pyReprMap : List (String × FVal) → List String
  | [] => []
  | (k, v) :: rest => ("'" ++ k ++ "': " ++ pyRepr v) :: pyReprMap rest
end

/-- Model of Python `str()` on a filled value. -/
def pyStr : FVal → String
  | .str s => s
  | .raw s _ => s
  | .list xs => pyRepr (.list xs)
  | .map kvs => pyRepr (.map kvs)

/-- Dict lookup chain `item.get('heading', item.get('title', ''))` from
`save_markdown` (crew.py line 126). -/
def headingOf (m : List (String × FVal)) : FVal :=
  match m.lookup "heading" with
  | some v => v
  | none =>
    match m.lookup "title" with
    | some v => v
    | none => .str ""

/-- Dict lookup chain `item.get('body', item.get('content', ''))` from
`save_markdown` (crew.py line 127). -/
def bodyOf (m : List (String × FVal)) : FVal :=
  match m.lookup "body" with
  | some v => v
  | none =>
    match m.lookup "content" with
    | some v => v
    | none => .str ""

/-- Rendering of one list item in `save_markdown`: a heading line from the
`heading`/`title` field and a body line from `body`/`content`.  A non-dict
item raises `AttributeError` (`item.get`); a non-string body raises
`TypeError` (string concatenation). -/
def renderItem : FVal → Except String String
  | .map m =>
    match bodyOf m with
    | .str b => .ok ("\n### " ++ pyStr (headingOf m) ++ "\n" ++ b ++ "\n")
    | _ => .error "TypeError: can only concatenate str"
  | _ => .error "AttributeError: item has no attribute get"

/-- Sequential rendering of a list value's items. -/
def renderItems : List FVal → Except String String
  | [] => .ok ""
  | it :: rest =>
    match renderItem it with
    | .error e => .error e
    | .ok s =>
      match renderItems rest with
      | .error e => .error e
      | .ok r => .ok (s ++ r)

/-- Rendering of one top-level value in `save_markdown`: list values item
by item, anything else as `f"{val}\n\n"`. -/
def renderVal : FVal → Except String String
  | .list items => renderItems items
  | v => .ok (pyStr v ++ "\n\n")

/-- Sequential rendering of the top-level dict entries, in key order. -/
def renderKVs : List (String × FVal) → Except String String
  | [] => .ok ""
  | (_, v) :: rest =>
    match renderVal v with
    | .error e => .error e
    | .ok s =>
      match renderKVs rest with
      | .error e => .error e
      | .ok r => .ok (s ++ r)

/-- Embedding of `save_markdown` (crew.py lines 121-132) as the text it
writes: a dict is rendered entry by entry, a plain string is written as
is, any other top-level value raises `TypeError` in `f.write`. -/
def save_markdown : FVal → Except String String
  | .map kvs => renderKVs kvs
  | .str s => .ok s
  | _ => .error "TypeError: write argument must be str"

/-- Leaf element built by `dict_to_xml`: `<t>txt</t>`. -/
def xmlLeaf (t txt : String) : Element :=
  .mk t [] (some txt) []

/-- Child element `dict_to_xml` builds for one dict-valued entry (or one
list item): one grandchild per sub-key, with stringified text. -/
def subDictChildren (key : String) (m : List (String × FVal)) : Element :=
  .mk key [] none (m.map (fun kv => xmlLeaf kv.1 (pyStr kv.2)))

/-- List branch of `dict_to_xml`: one repeated child per item, each item a
dict; a non-dict item raises `AttributeError` (`item.items()`). -/
def xmlItems (key : String) : List FVal → Except String (List Element)
  | [] => .ok []
  | .map m :: rest =>
    match xmlItems key rest with
    | .error e => .error e
    | .ok cs => .ok (subDictChildren key m :: cs)
  | _ :: _ => .error "AttributeError: item has no attribute items"

/-- Top-level loop of `dict_to_xml` over the filled dict's entries. -/
def xmlKVs : List (String × FVal) → Except String (List Element)
  | [] => .ok []
  | (key, .list items) :: rest =>
    match xmlItems key items with
    | .error e => .error e
    | .ok cs =>
      match xmlKVs rest with
      | .error e => .error e
      | .ok cs2 => .ok (cs ++ cs2)
  | (key, .map m) :: rest =>
    match xmlKVs rest with
    | .error e => .error e
    | .ok cs => .ok (subDictChildren key m :: cs)
  | (key, v) :: rest =>
    match xmlKVs rest with
    | .error e => .error e
    | .ok cs => .ok (xmlLeaf key (pyStr v) :: cs)

/-- Embedding of `dict_to_xml` (crew.py lines 134-151): a fresh element
with the given tag, no attributes, no text, and one child per data entry;
a non-dict argument raises `AttributeError` (`data.items()`). -/
def dict_to_xml (tag : String) (data : FVal) : Except String Element :=
  match data with
  | .map kvs =>
    match xmlKVs kvs with
    | .error e => .error e
    | .ok cs => .ok (.mk tag [] none cs)
  | _ => .error "AttributeError: data has no attribute items"

/-- One page entry of `structure.yaml`: `id` and `title` are required by
the code (`page["id"]`, `page["title"]`), `template` is optional
(`page.get("template", default_template)`). -/
structure PageRef where
  id : String
  title : String
  template : Option String

/-- External inputs of the per-page loop.  `loadTemplate` abstracts
`load_template` (crew.py lines 101-107): reading
`templates/<name>.yaml` and taking its `page_template` key; `none` is the
template-not-found case in which the code prints a warning and returns
`None`.  `search` abstracts the document-search capability plus parsing,
see the header comment. -/
structure Env where
  loadTemplate : String → Option TVal
  search : String → Option (Option Element)

/-- Observable result of a (partial) run of the build loop: the markdown
files written so far as `(path, content)` pairs, the per-page console log
as `(page_id, template_name)` pairs (one per `"Building page"` print), and
either the collected page elements or the exception that aborted the
run. -/
structure RunResult where
  files : List (String × String)
  log : List (String × String)
  res : Except String (List Element)

/-- Embedding of `process_pages` (crew.py lines 155-182).  For each page in
order: resolve the template name (`page.get("template", default_template)`),
print the progress line (modelled by the `log` entry), load the template and
skip the page when the result is falsy (`if not template: continue`);
otherwise extract, fill, save the markdown file at
`output/<page_id>.md`, build the `<page>` element and set its `id`
attribute.  An exception from fill, save or element construction aborts the
whole call exactly where Python's call stack would: the markdown file is
still on disk when `dict_to_xml` raises, since it was written first. -/
def process_pages (env : Env) (default_template : String) : List PageRef → RunResult
  | [] => ⟨[], [], .ok []⟩
  | page :: rest =>
    let template_name := page.template.getD default_template
    let entry := (page.id, template_name)
    match env.loadTemplate template_name with
    | none =>
      let r := process_pages env default_template rest
      ⟨r.files, entry :: r.log, r.res⟩
    | some t =>
      if isFalsy t then
        let r := process_pages env default_template rest
        ⟨r.files, entry :: r.log, r.res⟩
      else
        let content_data := extract_content env.search page.id
        match fill_template t content_data with
        | .error e => ⟨[], [entry], .error e⟩
        | .ok filled =>
          match save_markdown filled with
          | .error e => ⟨[], [entry], .error e⟩
          | .ok md =>
            let file := ("output/" ++ page.id ++ ".md", md)
            match dict_to_xml "page" filled with
            | .error e => ⟨[file], [entry], .error e⟩
            | .ok el =>
              let page_elem := el.setAttr "id" page.id
              let r := process_pages env default_template rest
              ⟨file :: r.files, entry :: r.log, r.res.map (fun els => page_elem :: els)⟩

/-- One node of `structure.yaml`'s `knowledge_base` list.  `pages` is
`none` when the `pages` key is absent (the code distinguishes
`if "pages" in category` for top-level categories from
`sub.get("pages", [])` for subcategories).  `subcategories` may nest
arbitrarily in the input; the build loop only ever reads two levels. -/
inductive Category where
  | mk (template : Option String) (pages : Option (List PageRef))
      (subcategories : List Category)

def Category.template : Category → Option String
  | .mk t _ _ => t

def Category.pages : Category → Option (List PageRef)
  | .mk _ p _ => p

def Category.subcategories : Category → List Category
  | .mk _ _ s => s

/-- Sequential composition of two run fragments: when the first fragment
raised, the second one never runs (the exception has already escaped the
top-level loop); otherwise files, logs and page elements accumulate in
order. -/
def seqRun (a : RunResult) (next : Unit → RunResult) : RunResult :=
  match a.res with
  | .error _ => a
  | .ok els =>
    let b := next ()
    ⟨a.files ++ b.files, a.log ++ b.log, b.res.map (fun els2 => els ++ els2)⟩

/-- Inner loop of the build (crew.py lines 193-196): each `sub` in
`category.get("subcategories", [])` gets
`sub_template = sub.get("template", default_template)` and its
`sub.get("pages", [])` processed.  Deeper `subcategories` of `sub` are
never read. -/
def runSubs (env : Env) (default_template : String) : List Category → RunResult
  | [] => ⟨[], [], .ok []⟩
  | sub :: rest =>
    let sub_template := sub.template.getD default_template
    seqRun (process_pages env sub_template (sub.pages.getD []))
      (fun _ => runSubs env default_template rest)

/-- One iteration of the outer build loop (crew.py lines 186-196):
`default_template = category.get("template", "default_page")`, the
category's own pages first (only when the `pages` key is present), then
its immediate subcategories. -/
def runCat (env : Env) (category : Category) : RunResult :=
  let default_template := category.template.getD "default_page"
  let own :=
    match category.pages with
    | some ps => process_pages env default_template ps
    | none => ⟨[], [], .ok []⟩
  seqRun own (fun _ => runSubs env default_template category.subcategories)

/-- Embedding of the whole build loop over `structure["knowledge_base"]`
(crew.py lines 184-196). -/
def runMain (env : Env) : List Category → RunResult
  | [] => ⟨[], [], .ok []⟩
  | category :: rest => seqRun (runCat env category) (fun _ => runMain env rest)

/-- Text escaping applied by `ElementTree` serialization to element
text. -/
def escapeText (s : String) : String :=
  ((s.replace "&" "&amp;").replace "<" "&lt;").replace ">" "&gt;"

/-- Attribute-value escaping of `ElementTree` serialization. -/
def escapeAttrVal (s : String) : String :=
  (escapeText s).replace "\"" "&quot;"

mutual
/-- Model of `ElementTree` serialization of one element: attributes in
order, text, then children; an element with no text and no children is
self-closed. -/
def serializeElem : Element → String
  | .mk t a tx cs =>
    let attrStr := joinSep "" (a.map (fun kv => " " ++ kv.1 ++ "=\"" ++ escapeAttrVal kv.2 ++ "\""))
    match tx, cs with
    | none, [] => "<" ++ t ++ attrStr ++ " />"
    | _, _ =>
      "<" ++ t ++ attrStr ++ ">" ++
        (match tx with
         | some s => escapeText s
         | none => "") ++
        serializeList cs ++ "</" ++ t ++ ">"

/-- Serialization of a child list in order. -/
def serializeList : List Element → String
  | [] => ""
  | e :: rest => serializeElem e ++ serializeList rest
end

/-- Declaration line written by `tree.write(..., encoding="utf-8",
xml_declaration=True)`. -/
def xmlDecl : String :=
  "<?xml version='1.0' encoding='utf-8'?>\n"

/-- Bytes of `output/knowledge_base.xml` produced by a run (crew.py lines
199-205): all collected page elements wrapped under one `knowledge_base`
root.  When the run raised, the program died before reaching the final
write and no aggregate is produced. -/
def aggregateXml (env : Env) (cats : List Category) : Option String :=
  match (runMain env cats).res with
  | .error _ => none
  | .ok els => some (xmlDecl ++ serializeElem (.mk "knowledge_base" [] none els))

/-- Template name the loop resolves for one page given the surrounding
default (crew.py line 159). -/
def resolvedName (page : PageRef) (default_template : String) : String :=
  page.template.getD default_template

/-- Template a page actually proceeds with: `none` when `load_template`
returned `None` or the loaded value is falsy (both make
`if not template: continue` skip the page). -/
def loadedTruthy (env : Env) (default_template : String) (page : PageRef) : Option TVal :=
  match env.loadTemplate (resolvedName page default_template) with
  | none => none
  | some t => if isFalsy t then none else some t

/-- Outputs one page contributes when every step of its build succeeds:
the markdown file (path and content) and the aggregation element.  `none`
when the page is skipped or some step raises. -/
def pageBuild (env : Env) (default_template : String) (page : PageRef) :
    Option ((String × String) × Element) :=
  match loadedTruthy env default_template page with
  | none => none
  | some t =>
    match fill_template t (extract_content env.search page.id) with
    | .error _ => none
    | .ok filled =>
      match save_markdown filled with
      | .error _ => none
      | .ok md =>
        match dict_to_xml "page" filled with
        | .error _ => none
        | .ok el => some (("output/" ++ page.id ++ ".md", md), el.setAttr "id" page.id)

/-- Predicate: the page either gets skipped at the template guard, or its
whole build succeeds (no step raises). -/
def pageOk (env : Env) (default_template : String) (page : PageRef) : Prop :=
  loadedTruthy env default_template page = none ∨
    (pageBuild env default_template page).isSome = true

/-- Modelled from the spec: the per-page template resolution the spec
describes (explicit page template, else nearest enclosing category that
sets one, else the global default `"default_page"`), restricted to the two
levels the build loop actually visits.  Used only to compare with the
code's own processing log. -/
def specResolvedPages (cats : List Category) : List (String × String) :=
  cats.flatMap (fun c =>
    let dt := c.template.getD "default_page"
    (match c.pages with
     | some ps => ps.map (fun p => (p.id, p.template.getD dt))
     | none => []) ++
    c.subcategories.flatMap (fun s =>
      let st := s.template.getD dt
      (s.pages.getD []).map (fun p => (p.id, p.template.getD st))))

/-- Witness-style predicate: the template contains (at any depth) a string
leaf with a replacement field whose name is not a key of `data` — the
template-authoring error of spec section 7. -/
inductive MentionsMissing (data : ContentMap) : TVal → Prop where
  | str : ∀ (cs : List Fmt) (k : String), Fmt.ph k ∈ cs → data.lookup k = none →
      MentionsMissing data (.str cs)
  | list : ∀ (xs : List TVal) (x : TVal), x ∈ xs → MentionsMissing data x →
      MentionsMissing data (.list xs)
  | map : ∀ (kvs : List (String × TVal)) (key : String) (v : TVal), (key, v) ∈ kvs →
      MentionsMissing data v → MentionsMissing data (.map kvs)

theorem get_nth_in_range (root : Element) (n : Nat) (s : Element) (hn : 1 ≤ n)
    (hs : (findAll root "section").get? (n - 1) = some s) :
    get_nth_section_text root n = pyStrip ((s.text).getD "") := by
  have hlt : n - 1 < (findAll root "section").length := (List.get?_eq_some.mp hs).1
  have hle : n ≤ (findAll root "section").length := by omega
  simp only [get_nth_section_text]
  rw [if_pos hle, hs]
  dsimp only
  cases htx : s.text with
  | none => rfl
  | some t =>
    dsimp only
    by_cases ht : t = ""
    · subst ht; rfl
    · rw [if_pos ht]; rfl

theorem get_nth_out_of_range (root : Element) (n : Nat)
    (h : (findAll root "section").length < n) :
    get_nth_section_text root n = "[section " ++ Nat.repr n ++ " not found]" := by
  simp only [get_nth_section_text]
  rw [if_neg (by omega)]

/-- C5: for every element tree and slash-separated path of plain child
names, `get_text_from_path` returns the stripped text of the node reached
by following the segments in order, and returns the placeholder
`"[<path> not found]"` — built from the full original path — whenever some
segment is absent at any depth or the final node's text is `None` or
empty. -/
theorem path_lookup_spec (elem : Element) (path : String)
    (hplain : ∀ part ∈ splitSlash path, isPlainTag part = true) :
    (descendPath elem (splitSlash path) = none →
      get_text_from_path elem path = "[" ++ path ++ " not found]") ∧
    (∀ e, descendPath elem (splitSlash path) = some e →
      (e.text = none ∨ e.text = some "") →
      get_text_from_path elem path = "[" ++ path ++ " not found]") ∧
    (∀ e t, descendPath elem (splitSlash path) = some e → e.text = some t → t ≠ "" →
      get_text_from_path elem path = pyStrip t) := by
  refine ⟨?_, ?_, ?_⟩
  · intro h
    unfold get_text_from_path
    rw [h]
  · intro e he hte
    unfold get_text_from_path
    rw [he]
    dsimp only
    rcases hte with h | h
    · rw [h]
    · rw [h]; simp
  · intro e t he ht hne
    unfold get_text_from_path
    rw [he]
    dsimp only
    rw [ht]
    dsimp only
    rw [if_pos hne]

/-- Witness for C5 at a concrete input: a childless root and the path
`"faq/q"`, whose first segment is already absent, give the placeholder
carrying the full path. -/
theorem path_lookup_spec_w :
    get_text_from_path (Element.mk "doc" [] none []) "faq/q" = "[faq/q not found]" :=
  (path_lookup_spec (Element.mk "doc" [] none []) "faq/q" (by decide)).1 rfl

/-- C6: positional lookup considers exactly the flat list of direct
children of the root tagged `section`; when at least `n` of them exist the
stripped text of the `n`-th (1-indexed) is returned, otherwise the
placeholder `"[section <n> not found]"`. -/
theorem nth_section_spec (root : Element) (n : Nat) (hn : 1 ≤ n) :
    findAll root "section" = root.children.filter (fun c => c.tag == "section") ∧
    ((findAll root "section").length < n →
      get_nth_section_text root n = "[section " ++ Nat.repr n ++ " not found]") ∧
    (∀ s, (findAll root "section").get? (n - 1) = some s →
      get_nth_section_text root n = pyStrip ((s.text).getD "")) := by
  refine ⟨rfl, ?_, ?_⟩
  · intro h
    exact get_nth_out_of_range root n h
  · intro s hs
    exact get_nth_in_range root n s hn hs

/-- Witness for C6 at a concrete input: a root with two `section` children
(with a non-`section` sibling between them, and a nested `section` inside
the first) has no third section, and its second section's text is
stripped. -/
theorem nth_section_spec_w :
    get_nth_section_text
      (Element.mk "doc" [] none
        [Element.mk "section" [] (some "  one  ") [Element.mk "section" [] (some "inner") []],
         Element.mk "other" [] (some "x") [],
         Element.mk "section" [] (some " two ") []]) 3 =
      "[section 3 not found]" :=
  (nth_section_spec
      (Element.mk "doc" [] none
        [Element.mk "section" [] (some "  one  ") [Element.mk "section" [] (some "inner") []],
         Element.mk "other" [] (some "x") [],
         Element.mk "section" [] (some " two ") []]) 3 (by decide)).2.1 (by decide)

/-- C10: when the `n`-th direct `section` child exists but its text is
`None`, empty or whitespace-only, positional lookup returns `""` rather
than a placeholder, and the corresponding ContentMap field
(`section_1_content` for `n = 1`, `section_2_content` for `n = 2`) is the
silently blank string for any page whose document parses to this root. -/
theorem nth_section_empty_blank (root : Element) (n : Nat) (s : Element)
    (hn : 1 ≤ n) (hs : (findAll root "section").get? (n - 1) = some s)
    (hempty : pyStrip ((s.text).getD "") = "") :
    get_nth_section_text root n = "" ∧
    (∀ (search : String → Option (Option Element)) (page_id : String),
      search page_id = some (some root) →
      (n = 1 → (extract_content search page_id).lookup "section_1_content" = some "") ∧
      (n = 2 → (extract_content search page_id).lookup "section_2_content" = some "")) := by
  have hmain : get_nth_section_text root n = "" := by
    rw [get_nth_in_range root n s hn hs, hempty]
  refine ⟨hmain, ?_⟩
  intro search page_id hsearch
  have hx : (extract_content search page_id).lookup "section_1_content" =
      some (get_nth_section_text root 1) ∧
      (extract_content search page_id).lookup "section_2_content" =
      some (get_nth_section_text root 2) := by
    unfold extract_content
    rw [hsearch]
    exact ⟨rfl, rfl⟩
  constructor
  · intro h1
    rw [hx.1, ← h1, hmain]
  · intro h2
    rw [hx.2, ← h2, hmain]

/-- Witness for C10 at a concrete input: the first section's text is
whitespace-only, the lookup returns `""` and the extracted
`section_1_content` field is blank. -/
theorem nth_section_empty_blank_w :
    get_nth_section_text
      (Element.mk "doc" [] none [Element.mk "section" [] (some "   ") []]) 1 = "" ∧
    (extract_content
      (fun _ => some (some (Element.mk "doc" [] none [Element.mk "section" [] (some "   ") []])))
      "p").lookup "section_1_content" = some "" := by
  have h := nth_section_empty_blank
    (Element.mk "doc" [] none [Element.mk "section" [] (some "   ") []]) 1
    (Element.mk "section" [] (some "   ") []) (by decide) rfl (by decide)
  exact ⟨h.1, ((h.2 (fun _ => some (some (Element.mk "doc" [] none
    [Element.mk "section" [] (some "   ") []]))) "p" rfl).1 rfl)⟩

/-- C7: a page whose template fails to load is skipped entirely — the run
continues with the remaining pages, with the same files, the same page
elements and the same outcome, plus only the skipped page's progress-log
entry. -/
theorem template_missing_skips (env : Env) (dt : String) (page : PageRef)
    (rest : List PageRef)
    (hload : env.loadTemplate (resolvedName page dt) = none) :
    process_pages env dt (page :: rest) =
      ⟨(process_pages env dt rest).files,
       (page.id, resolvedName page dt) :: (process_pages env dt rest).log,
       (process_pages env dt rest).res⟩ := by
  unfold resolvedName at hload
  rw [process_pages, hload]
  rfl

/-- Witness for C7 at a concrete input: with no template loadable, a
one-page run writes nothing, logs the page, and ends with an empty page
list. -/
theorem template_missing_skips_w :
    process_pages ⟨fun _ => none, fun _ => none⟩ "default_page"
      [⟨"p1", "Page 1", none⟩] = ⟨[], [("p1", "default_page")], .ok []⟩ :=
  template_missing_skips ⟨fun _ => none, fun _ => none⟩ "default_page"
    ⟨"p1", "Page 1", none⟩ [] rfl

theorem formatChunks_error_lookup (data : ContentMap) :
    ∀ (cs : List Fmt) (k : String), formatChunks data cs = .error k → data.lookup k = none := by
  intro cs
  induction cs with
  | nil => intro k h; simp [formatChunks] at h
  | cons c rest ih =>
    intro k h
    cases c with
    | lit s =>
      rw [formatChunks] at h
      cases hr : formatChunks data rest with
      | ok r => rw [hr] at h; simp at h
      | error e => rw [hr] at h; simp at h; subst h; exact ih _ hr
    | ph p =>
      rw [formatChunks] at h
      cases hl : data.lookup p with
      | none => rw [hl] at h; simp at h; subst h; exact hl
      | some v =>
        rw [hl] at h
        cases hr : formatChunks data rest with
        | ok r => rw [hr] at h; simp at h
        | error e => rw [hr] at h; simp at h; subst h; exact ih _ hr

mutual
theorem rr_error_lookup (data : ContentMap) :
    ∀ (t : TVal) (k : String), recursive_replace data t = .error k → data.lookup k = none
  | .str cs, k => by
    rw [recursive_replace]
    intro h
    cases hc : formatChunks data cs with
    | ok r => rw [hc] at h; simp [Except.map] at h
    | error e =>
      rw [hc] at h; simp [Except.map] at h; subst h
      exact formatChunks_error_lookup data cs _ hc
  | .raw s b, k => by rw [recursive_replace]; intro h; simp at h
  | .list xs, k => by
    rw [recursive_replace]
    intro h
    cases hc : rrList data xs with
    | ok r => rw [hc] at h; simp [Except.map] at h
    | error e => rw [hc] at h; simp [Except.map] at h; subst h; exact rrList_error_lookup data xs _ hc
  | .map kvs, k => by
    rw [recursive_replace]
    intro h
    cases hc : rrMap data kvs with
    | ok r => rw [hc] at h; simp [Except.map] at h
    | error e => rw [hc] at h; simp [Except.map] at h; subst h; exact rrMap_error_lookup data kvs _ hc

theorem rrList_error_lookup (data : ContentMap) :
    ∀ (xs : List TVal) (k : String), rrList data xs = .error k → data.lookup k = none
  | [], k => by rw [rrList]; intro h; simp at h
  | x :: xs, k => by
    rw [rrList]
    intro h
    cases hx : recursive_replace data x with
    | error e => rw [hx] at h; simp at h; subst h; exact rr_error_lookup data x _ hx
    | ok v =>
      rw [hx] at h
      cases hxs : rrList data xs with
      | error e => rw [hxs] at h; simp at h; subst h; exact rrList_error_lookup data xs _ hxs
      | ok vs => rw [hxs] at h; simp at h

theorem rrMap_error_lookup (data : ContentMap) :
    ∀ (xs : List (String × TVal)) (k : String), rrMap data xs = .error k → data.lookup k = none
  | [], k => by rw [rrMap]; intro h; simp at h
  | (key, x) :: xs, k => by
    rw [rrMap]
    intro h
    cases hx : recursive_replace data x with
    | error e => rw [hx] at h; simp at h; subst h; exact rr_error_lookup data x _ hx
    | ok v =>
      rw [hx] at h
      cases hxs : rrMap data xs with
      | error e => rw [hxs] at h; simp at h; subst h; exact rrMap_error_lookup data xs _ hxs
      | ok vs => rw [hxs] at h; simp at h
end

theorem formatChunks_missing_not_ok (data : ContentMap) (cs : List Fmt) (k : String)
    (hmem : Fmt.ph k ∈ cs) (hk : data.lookup k = none) :
    ∀ s, formatChunks data cs ≠ .ok s := by
  induction cs with
  | nil => simp at hmem
  | cons c rest ih =>
    intro s h
    rcases List.mem_cons.mp hmem with hc | hc
    · subst hc
      rw [formatChunks, hk] at h
      simp at h
    · cases c with
      | lit s0 =>
        rw [formatChunks] at h
        cases hr : formatChunks data rest with
        | error e => rw [hr] at h; simp at h
        | ok r => exact ih hc r hr
      | ph p =>
        rw [formatChunks] at h
        cases hl : data.lookup p with
        | none => rw [hl] at h; simp at h
        | some v =>
          rw [hl] at h
          cases hr : formatChunks data rest with
          | error e => rw [hr] at h; simp at h
          | ok r => exact ih hc r hr

theorem rrList_not_ok_of_mem (data : ContentMap) (x : TVal) :
    ∀ (xs : List TVal), x ∈ xs → (∀ v, recursive_replace data x ≠ .ok v) →
    ∀ vs, rrList data xs ≠ .ok vs := by
  intro xs
  induction xs with
  | nil => intro h; simp at h
  | cons y ys ih =>
    intro hmem hx vs h
    rw [rrList] at h
    cases hy : recursive_replace data y with
    | error e => rw [hy] at h; simp at h
    | ok v =>
      rw [hy] at h
      rcases List.mem_cons.mp hmem with hc | hc
      · subst hc; exact hx v hy
      · cases hys : rrList data ys with
        | error e => rw [hys] at h; simp at h
        | ok vs2 => exact ih hc hx vs2 hys

theorem rrMap_not_ok_of_mem (data : ContentMap) (key : String) (x : TVal) :
    ∀ (xs : List (String × TVal)), (key, x) ∈ xs → (∀ v, recursive_replace data x ≠ .ok v) →
    ∀ vs, rrMap data xs ≠ .ok vs := by
  intro xs
  induction xs with
  | nil => intro h; simp at h
  | cons y ys ih =>
    intro hmem hx vs h
    obtain ⟨ky, vy⟩ := y
    rw [rrMap] at h
    cases hy : recursive_replace data vy with
    | error e => rw [hy] at h; simp at h
    | ok v =>
      rw [hy] at h
      rcases List.mem_cons.mp hmem with hc | hc
      · rw [Prod.mk.injEq] at hc
        rw [← hc.2] at hy
        exact hx v hy
      · cases hys : rrMap data ys with
        | error e => rw [hys] at h; simp at h
        | ok vs2 => exact ih hc hx vs2 hys

theorem mentions_missing_not_ok (data : ContentMap) (t : TVal)
    (hm : MentionsMissing data t) : ∀ v, recursive_replace data t ≠ .ok v := by
  induction hm with
  | str cs k hmem hk =>
    intro v h
    rw [recursive_replace] at h
    cases hc : formatChunks data cs with
    | error e => rw [hc] at h; simp [Except.map] at h
    | ok s =>
      exact formatChunks_missing_not_ok data cs k hmem hk s hc
  | list xs x hmem _ ih =>
    intro v h
    rw [recursive_replace] at h
    cases hc : rrList data xs with
    | error e => rw [hc] at h; simp [Except.map] at h
    | ok vs => exact rrList_not_ok_of_mem data x xs hmem ih vs hc
  | map kvs key x hmem _ ih =>
    intro v h
    rw [recursive_replace] at h
    cases hc : rrMap data kvs with
    | error e => rw [hc] at h; simp [Except.map] at h
    | ok vs => exact rrMap_not_ok_of_mem data key x kvs hmem ih vs hc

theorem mentions_missing_fill_error (data : ContentMap) (t : TVal)
    (hm : MentionsMissing data t) :
    ∃ k, fill_template t data = .error k ∧ data.lookup k = none := by
  cases hf : fill_template t data with
  | ok v => exact absurd hf (mentions_missing_not_ok data t hm v)
  | error k => exact ⟨k, rfl, rr_error_lookup data t k hf⟩

theorem fill_missing_aborts (env : Env) (dt : String) (page : PageRef)
    (rest : List PageRef) (t : TVal)
    (hload : env.loadTemplate (resolvedName page dt) = some t)
    (ht : isFalsy t = false)
    (hmiss : MentionsMissing (extract_content env.search page.id) t) :
    ∃ k, (extract_content env.search page.id).lookup k = none ∧
      fill_template t (extract_content env.search page.id) = .error k ∧
      process_pages env dt (page :: rest) =
        ⟨[], [(page.id, resolvedName page dt)], .error k⟩ := by
  obtain ⟨k, hfill, hk⟩ :=
    mentions_missing_fill_error (extract_content env.search page.id) t hmiss
  refine ⟨k, hk, hfill, ?_⟩
  unfold resolvedName at hload ⊢
  rw [process_pages, hload]
  dsimp only
  simp only [ht, Bool.false_eq_true, if_false]
  rw [hfill]

/-- C8: when a page's template (loaded and truthy) contains a string leaf
referencing a replacement-field name absent from that page's ContentMap,
the fill step raises a `KeyError` naming a missing key; the error
propagates out of the page loop (the run's result is that error), and the
page gets no rendered file and no aggregation element. -/
theorem missing_placeholder_fatal (env : Env) (dt : String) (page : PageRef)
    (rest : List PageRef) (t : TVal)
    (hload : env.loadTemplate (resolvedName page dt) = some t)
    (ht : isFalsy t = false)
    (hmiss : MentionsMissing (extract_content env.search page.id) t) :
    ∃ k, (extract_content env.search page.id).lookup k = none ∧
      fill_template t (extract_content env.search page.id) = .error k ∧
      process_pages env dt (page :: rest) =
        ⟨[], [(page.id, resolvedName page dt)], .error k⟩ :=
  fill_missing_aborts env dt page rest t hload ht hmiss

/-- Witness for C8 at a concrete input: a loaded template referencing
`\x7bbogus\x7d` against a successfully extracted ContentMap fails with
`KeyError: bogus`, yields no file and no element, and aborts the run. -/
theorem missing_placeholder_fatal_w :
    ∃ k,
      (extract_content (fun _ => some (some (Element.mk "page" [] none []))) "p8").lookup k =
        none ∧
      fill_template (.map [("body", .str [Fmt.ph "bogus"])])
        (extract_content (fun _ => some (some (Element.mk "page" [] none []))) "p8") =
        .error k ∧
      process_pages
        ⟨fun _ => some (.map [("body", .str [Fmt.ph "bogus"])]),
         fun _ => some (some (Element.mk "page" [] none []))⟩
        "default_page" [⟨"p8", "Page 8", none⟩] =
        ⟨[], [("p8", "default_page")], .error k⟩ :=
  missing_placeholder_fatal
    ⟨fun _ => some (.map [("body", .str [Fmt.ph "bogus"])]),
     fun _ => some (some (Element.mk "page" [] none []))⟩
    "default_page" ⟨"p8", "Page 8", none⟩ [] (.map [("body", .str [Fmt.ph "bogus"])])
    rfl rfl
    (MentionsMissing.map _ "body" (.str [Fmt.ph "bogus"]) (List.mem_singleton.mpr rfl)
      (MentionsMissing.str _ "bogus" (List.mem_singleton.mpr rfl) rfl))

/-- Environment of the C1 counterexample: every template name loads a
one-field template referencing `\x7bintroduction\x7d`, and the document
search never finds a match. -/
def envMissC1 : Env :=
  ⟨fun _ => some (.map [("body", .str [Fmt.ph "introduction"])]), fun _ => none⟩

/-- Counterexample to C1 as stated: the page's template loads successfully
and its identifier has no match in the search capability, extraction does
return the empty ContentMap — but the template fill does not surface
placeholder text: it raises `KeyError: introduction`, so no per-page
output file and no aggregation element is produced. -/
theorem extract_miss_still_renders_cex :
    envMissC1.loadTemplate "default_page" =
      some (.map [("body", .str [Fmt.ph "introduction"])]) ∧
    envMissC1.search "p1" = none ∧
    extract_content envMissC1.search "p1" = [] ∧
    process_pages envMissC1 "default_page" [⟨"p1", "Page 1", none⟩] =
      ⟨[], [("p1", "default_page")], .error "introduction"⟩ :=
  ⟨rfl, rfl, rfl, rfl⟩

/-- C1 as amended: on an extraction miss (no search match, or parse
failure) the ContentMap is empty; the page is then rendered only when the
template's string leaves reference no placeholder at all (in which case
one file and one element are produced and processing continues), while a
template with any placeholder makes the fill step raise a `KeyError`,
producing no file and no element for the page and aborting the run. -/
theorem extract_miss_behavior (env : Env) (dt : String) (page : PageRef)
    (rest : List PageRef) (t : TVal)
    (hsearch : env.search page.id = none ∨ env.search page.id = some none)
    (hload : env.loadTemplate (resolvedName page dt) = some t)
    (ht : isFalsy t = false) :
    extract_content env.search page.id = [] ∧
    (MentionsMissing [] t →
      (process_pages env dt (page :: rest)).files = [] ∧
      ∃ k, (process_pages env dt (page :: rest)).res = .error k) ∧
    (∀ filled md el, fill_template t [] = .ok filled → save_markdown filled = .ok md →
      dict_to_xml "page" filled = .ok el →
      process_pages env dt (page :: rest) =
        ⟨("output/" ++ page.id ++ ".md", md) :: (process_pages env dt rest).files,
         (page.id, resolvedName page dt) :: (process_pages env dt rest).log,
         (process_pages env dt rest).res.map (fun els => el.setAttr "id" page.id :: els)⟩) := by
  have hextract : extract_content env.search page.id = [] := by
    unfold extract_content
    rcases hsearch with h | h
    · rw [h]
    · rw [h]; rfl
  refine ⟨hextract, ?_, ?_⟩
  · intro hmiss
    obtain ⟨k, hk, hfill, hrun⟩ :=
      fill_missing_aborts env dt page rest t hload ht (by rw [hextract]; exact hmiss)
    rw [hrun]
    exact ⟨rfl, k, rfl⟩
  · intro filled md el hfill hsave hxml
    unfold resolvedName at hload ⊢
    rw [process_pages, hload]
    dsimp only
    simp only [ht, Bool.false_eq_true, if_false]
    rw [hextract, hfill]
    dsimp only
    rw [hsave]
    dsimp only
    rw [hxml]

/-- Witness for the amended C1 at a concrete input: a placeholder-free
template still renders on an extraction miss, producing exactly one file
and one `page` element. -/
theorem extract_miss_behavior_w :
    extract_content (fun _ => (none : Option (Option Element))) "p1" = [] ∧
    process_pages ⟨fun _ => some (.map [("body", .str [Fmt.lit "hello"])]), fun _ => none⟩
      "default_page" [⟨"p1", "Page 1", none⟩] =
      ⟨[("output/p1.md", "hello\n\n")], [("p1", "default_page")],
       .ok [Element.mk "page" [("id", "p1")] none
         [Element.mk "body" [] (some "hello") []]]⟩ := by
  have h := extract_miss_behavior
    ⟨fun _ => some (.map [("body", .str [Fmt.lit "hello"])]), fun _ => none⟩
    "default_page" ⟨"p1", "Page 1", none⟩ [] (.map [("body", .str [Fmt.lit "hello"])])
    (Or.inl rfl) rfl rfl
  exact ⟨h.1,
    h.2.2 (.map [("body", .str "hello")]) "hello\n\n"
      (Element.mk "page" [] none [Element.mk "body" [] (some "hello") []]) rfl rfl rfl⟩

/-- Counterexample to C2 as stated: for a page identifier with no match in
the search capability, the extracted ContentMap is the empty dict, which
contains none of the fixed keys. -/
theorem content_map_fixed_keys_cex :
    extract_content (fun _ => (none : Option (Option Element))) "p2" = [] ∧
    ¬ (∀ k ∈ fixedContentKeys,
        k ∈ (extract_content (fun _ => (none : Option (Option Element))) "p2").map Prod.fst) := by
  refine ⟨rfl, ?_⟩
  decide

/-- C2 as amended: the extracted ContentMap carries exactly the fixed key
set (in extraction order) whenever the page's document is found and parses
— while an extraction miss (no match, or parse failure) returns the empty
mapping instead, with no keys at all. -/
theorem content_map_fixed_keys (search : String → Option (Option Element)) (page_id : String) :
    (∀ root, search page_id = some (some root) →
      (extract_content search page_id).map Prod.fst = fixedContentKeys) ∧
    (search page_id = none ∨ search page_id = some none →
      extract_content search page_id = []) := by
  constructor
  · intro root h
    unfold extract_content
    rw [h]
    rfl
  · intro h
    unfold extract_content
    rcases h with h | h
    · rw [h]
    · rw [h]; rfl

/-- Witness for the amended C2 at a concrete input: a parsed (even empty)
document yields every fixed key, and a missing document yields the empty
map. -/
theorem content_map_fixed_keys_w :
    (extract_content (fun _ => some (some (Element.mk "doc" [] none []))) "a/b-c").map
      Prod.fst = fixedContentKeys ∧
    extract_content (fun _ => (none : Option (Option Element))) "a/b-c" = [] := by
  refine ⟨(content_map_fixed_keys (fun _ => some (some (Element.mk "doc" [] none []))) "a/b-c").1
    (Element.mk "doc" [] none []) rfl, ?_⟩
  exact (content_map_fixed_keys (fun _ => (none : Option (Option Element))) "a/b-c").2 (Or.inl rfl)

theorem loadedTruthy_some (env : Env) (dt : String) (p : PageRef) (t : TVal)
    (h : loadedTruthy env dt p = some t) :
    env.loadTemplate (resolvedName p dt) = some t ∧ isFalsy t = false := by
  unfold loadedTruthy at h
  cases hl : env.loadTemplate (resolvedName p dt) with
  | none => rw [hl] at h; simp at h
  | some t' =>
    rw [hl] at h
    dsimp only at h
    by_cases hf : isFalsy t' = true
    · rw [if_pos hf] at h; simp at h
    · rw [if_neg hf] at h
      injection h with h
      subst h
      simp at hf
      exact ⟨rfl, hf⟩

theorem loadedTruthy_none (env : Env) (dt : String) (p : PageRef)
    (h : loadedTruthy env dt p = none) :
    env.loadTemplate (resolvedName p dt) = none ∨
      ∃ t, env.loadTemplate (resolvedName p dt) = some t ∧ isFalsy t = true := by
  unfold loadedTruthy at h
  cases hl : env.loadTemplate (resolvedName p dt) with
  | none => exact Or.inl rfl
  | some t' =>
    rw [hl] at h
    dsimp only at h
    by_cases hf : isFalsy t' = true
    · exact Or.inr ⟨t', rfl, hf⟩
    · rw [if_neg hf] at h; simp at h

theorem process_cons_skip (env : Env) (dt : String) (p : PageRef) (rest : List PageRef)
    (h : loadedTruthy env dt p = none) :
    process_pages env dt (p :: rest) =
      ⟨(process_pages env dt rest).files,
       (p.id, resolvedName p dt) :: (process_pages env dt rest).log,
       (process_pages env dt rest).res⟩ := by
  rcases loadedTruthy_none env dt p h with hl | ⟨t, hl, hf⟩
  · unfold resolvedName at hl
    rw [process_pages, hl]
    rfl
  · unfold resolvedName at hl
    rw [process_pages, hl]
    dsimp only
    simp only [hf, if_true]
    rfl

theorem process_cons_build (env : Env) (dt : String) (p : PageRef) (rest : List PageRef)
    (fe : (String × String) × Element) (hb : pageBuild env dt p = some fe) :
    process_pages env dt (p :: rest) =
      ⟨fe.1 :: (process_pages env dt rest).files,
       (p.id, resolvedName p dt) :: (process_pages env dt rest).log,
       (process_pages env dt rest).res.map (fun els => fe.2 :: els)⟩ := by
  unfold pageBuild at hb
  cases hl : loadedTruthy env dt p with
  | none => rw [hl] at hb; simp at hb
  | some t =>
    rw [hl] at hb
    dsimp only at hb
    obtain ⟨hload, hf⟩ := loadedTruthy_some env dt p t hl
    cases hfill : fill_template t (extract_content env.search p.id) with
    | error e => rw [hfill] at hb; simp at hb
    | ok filled =>
      rw [hfill] at hb
      dsimp only at hb
      cases hsave : save_markdown filled with
      | error e => rw [hsave] at hb; simp at hb
      | ok md =>
        rw [hsave] at hb
        dsimp only at hb
        cases hxml : dict_to_xml "page" filled with
        | error e => rw [hxml] at hb; simp at hb
        | ok el =>
          rw [hxml] at hb
          simp only [Option.some.injEq] at hb
          subst hb
          unfold resolvedName at hload ⊢
          rw [process_pages, hload]
          dsimp only
          simp only [hf, Bool.false_eq_true, if_false]
          rw [hfill]
          dsimp only
          rw [hsave]
          dsimp only
          rw [hxml]

theorem pageBuild_shape (env : Env) (dt : String) (p : PageRef)
    (fe : (String × String) × Element) (hb : pageBuild env dt p = some fe) :
    fe.1.1 = "output/" ++ p.id ++ ".md" ∧
    fe.2.tag = "page" ∧ (fe.2.attrs).lookup "id" = some p.id := by
  unfold pageBuild at hb
  cases hl : loadedTruthy env dt p with
  | none => rw [hl] at hb; simp at hb
  | some t =>
    rw [hl] at hb
    dsimp only at hb
    cases hfill : fill_template t (extract_content env.search p.id) with
    | error e => rw [hfill] at hb; simp at hb
    | ok filled =>
      rw [hfill] at hb
      dsimp only at hb
      cases hsave : save_markdown filled with
      | error e => rw [hsave] at hb; simp at hb
      | ok md =>
        rw [hsave] at hb
        dsimp only at hb
        cases hxml : dict_to_xml "page" filled with
        | error e => rw [hxml] at hb; simp at hb
        | ok el =>
          rw [hxml] at hb
          simp only [Option.some.injEq] at hb
          subst hb
          refine ⟨rfl, ?_⟩
          cases filled with
          | str s => exact absurd hxml (by simp [dict_to_xml])
          | raw s b => exact absurd hxml (by simp [dict_to_xml])
          | list xs => exact absurd hxml (by simp [dict_to_xml])
          | map kvs =>
            rw [dict_to_xml] at hxml
            cases hk : xmlKVs kvs with
            | error e => rw [hk] at hxml; simp at hxml
            | ok cs =>
              rw [hk] at hxml
              simp only [Except.ok.injEq] at hxml
              subst hxml
              exact ⟨rfl, rfl⟩

/-- Counterexample to C4 as stated: the template for `"p4"` loads
successfully (and is truthy), yet the run produces no rendered output file
and no aggregation element for the page, because the fill step raises a
`KeyError` on the placeholder name `bogus_key`. -/
theorem loaded_template_outputs_cex :
    (Env.mk (fun _ => some (.map [("body", .str [Fmt.ph "bogus_key"])]))
        (fun _ => some (some (Element.mk "page" [] none [])))).loadTemplate "default_page" =
      some (.map [("body", .str [Fmt.ph "bogus_key"])]) ∧
    isFalsy (.map [("body", .str [Fmt.ph "bogus_key"])]) = false ∧
    process_pages
      (Env.mk (fun _ => some (.map [("body", .str [Fmt.ph "bogus_key"])]))
        (fun _ => some (some (Element.mk "page" [] none []))))
      "default_page" [⟨"p4", "Page 4", none⟩] =
      ⟨[], [("p4", "default_page")], .error "bogus_key"⟩ :=
  ⟨rfl, rfl, rfl⟩

/-- C4 as amended: provided every page of the run either gets skipped at
the template guard or builds without an exception, the run produces
exactly one rendered file and one aggregation element per non-skipped page
(in order), and each element is tagged `page` with its `id` attribute
equal to that page's identifier, the file sitting at
`output/<page_id>.md`. -/
theorem pages_outputs (env : Env) (dt : String) (pages : List PageRef)
    (h : ∀ p ∈ pages, pageOk env dt p) :
    process_pages env dt pages =
      ⟨pages.filterMap (fun p => (pageBuild env dt p).map Prod.fst),
       pages.map (fun p => (p.id, resolvedName p dt)),
       .ok (pages.filterMap (fun p => (pageBuild env dt p).map Prod.snd))⟩ ∧
    (∀ p ∈ pages, ∀ fe, pageBuild env dt p = some fe →
      fe.1.1 = "output/" ++ p.id ++ ".md" ∧
      fe.2.tag = "page" ∧ (fe.2.attrs).lookup "id" = some p.id) := by
  refine ⟨?_, fun p _ fe hb => pageBuild_shape env dt p fe hb⟩
  induction pages with
  | nil => rfl
  | cons p rest ih =>
    have hp := h p (List.mem_cons_self p rest)
    have hrest := ih (fun q hq => h q (List.mem_cons_of_mem p hq))
    rcases hp with hskip | hbuild
    · rw [process_cons_skip env dt p rest hskip, hrest]
      have hpb : pageBuild env dt p = none := by
        unfold pageBuild
        rw [hskip]
      rw [List.filterMap_cons, List.filterMap_cons, hpb]
      rfl
    · obtain ⟨fe, hfe⟩ := Option.isSome_iff_exists.mp hbuild
      rw [process_cons_build env dt p rest fe hfe, hrest]
      rw [List.filterMap_cons, List.filterMap_cons, hfe]
      rfl

/-- Witness for the amended C4 at a concrete input: a one-page run whose
extraction, fill and serialization all succeed produces exactly one file
at `output/p4.md` and one element tagged `page` with `id="p4"`. -/
theorem pages_outputs_w :
    process_pages
      (Env.mk (fun _ => some (.map [("body", .str [Fmt.ph "introduction"])]))
        (fun _ => some (some (Element.mk "doc" [] none
          [Element.mk "introduction" [] (some "Hello") []]))))
      "default_page" [⟨"p4", "Page 4", none⟩] =
      ⟨[("output/p4.md", "Hello\n\n")], [("p4", "default_page")],
       .ok [Element.mk "page" [("id", "p4")] none
         [Element.mk "body" [] (some "Hello") []]]⟩ :=
  (pages_outputs
    (Env.mk (fun _ => some (.map [("body", .str [Fmt.ph "introduction"])]))
      (fun _ => some (some (Element.mk "doc" [] none
        [Element.mk "introduction" [] (some "Hello") []]))))
    "default_page" [⟨"p4", "Page 4", none⟩]
    (fun p hp => by
      rw [List.mem_singleton.mp hp]
      exact Or.inr rfl)).1

theorem process_log_of_ok (env : Env) (dt : String) :
    ∀ (pages : List PageRef) (els : List Element),
      (process_pages env dt pages).res = .ok els →
      (process_pages env dt pages).log = pages.map (fun p => (p.id, resolvedName p dt))
  | [], _, _ => rfl
  | p :: rest, els, h => by
    rw [process_pages] at h ⊢
    cases hl : env.loadTemplate (p.template.getD dt) with
    | none =>
      rw [hl] at h
      dsimp only at h ⊢
      rw [process_log_of_ok env dt rest els h]
      rfl
    | some t =>
      rw [hl] at h
      dsimp only at h ⊢
      by_cases hf : isFalsy t = true
      · rw [if_pos hf] at h ⊢
        dsimp only at h
        rw [process_log_of_ok env dt rest els h]
        rfl
      · rw [if_neg hf] at h ⊢
        cases hfill : fill_template t (extract_content env.search p.id) with
        | error e => rw [hfill] at h; dsimp only at h; cases h
        | ok filled =>
          rw [hfill] at h
          dsimp only at h ⊢
          cases hsave : save_markdown filled with
          | error e => rw [hsave] at h; dsimp only at h; cases h
          | ok md =>
            rw [hsave] at h
            dsimp only at h ⊢
            cases hxml : dict_to_xml "page" filled with
            | error e => rw [hxml] at h; dsimp only at h; cases h
            | ok el =>
              rw [hxml] at h
              dsimp only at h ⊢
              cases hres : (process_pages env dt rest).res with
              | error e => rw [hres] at h; dsimp only [Except.map] at h; cases h
              | ok els2 => rw [process_log_of_ok env dt rest els2 hres]; rfl

theorem seqRun_of_ok (a : RunResult) (next : Unit → RunResult) (els : List Element)
    (h : (seqRun a next).res = .ok els) :
    (seqRun a next).log = a.log ++ (next ()).log ∧
    (∃ e1, a.res = .ok e1) ∧ (∃ e2, (next ()).res = .ok e2) := by
  unfold seqRun at h ⊢
  obtain ⟨fa, la, ra⟩ := a
  cases ra with
  | error e => dsimp only at h; cases h
  | ok e1 =>
    dsimp only at h ⊢
    cases hb : (next ()).res with
    | error e2 => rw [hb] at h; dsimp only [Except.map] at h; cases h
    | ok e2 => exact ⟨rfl, ⟨e1, rfl⟩, ⟨e2, rfl⟩⟩

theorem runSubs_log_of_ok (env : Env) (dt : String) :
    ∀ (subs : List Category) (els : List Element),
      (runSubs env dt subs).res = .ok els →
      (runSubs env dt subs).log =
        subs.flatMap (fun s =>
          (s.pages.getD []).map (fun p => (p.id, p.template.getD (s.template.getD dt))))
  | [], _, _ => rfl
  | sub :: rest, els, h => by
    rw [runSubs] at h ⊢
    obtain ⟨hlog, ⟨e1, ha⟩, ⟨e2, hb⟩⟩ := seqRun_of_ok _ _ els h
    rw [hlog, process_log_of_ok env (sub.template.getD dt) (sub.pages.getD []) e1 ha,
      runSubs_log_of_ok env dt rest e2 hb]
    rfl

theorem runCat_log_of_ok (env : Env) (category : Category) (els : List Element)
    (h : (runCat env category).res = .ok els) :
    (runCat env category).log =
      (let dt := category.template.getD "default_page"
       (match category.pages with
        | some ps => ps.map (fun p => (p.id, p.template.getD dt))
        | none => []) ++
       category.subcategories.flatMap (fun s =>
         (s.pages.getD []).map (fun p => (p.id, p.template.getD (s.template.getD dt))))) := by
  rw [runCat] at h ⊢
  obtain ⟨hlog, ⟨e1, ha⟩, ⟨e2, hb⟩⟩ := seqRun_of_ok _ _ els h
  rw [hlog, runSubs_log_of_ok env (category.template.getD "default_page")
    category.subcategories e2 hb]
  cases hp : category.pages with
  | none => rfl
  | some ps =>
    rw [hp] at ha
    dsimp only at ha ⊢
    rw [process_log_of_ok env (category.template.getD "default_page") ps e1 ha]
    rfl

/-- Environment of the C3 counterexample: every template name loads a
truthy placeholder-free template, so no page is ever skipped or fails. -/
def envAllLoad : Env :=
  ⟨fun _ => some (.map [("body", .str [Fmt.lit "hi"])]), fun _ => none⟩

/-- Three-level tree of the C3 counterexample: only the top category sets
a template (`special`); its subcategory has no pages of its own and one
deeper subcategory holding the page `deep-page`. -/
def deepTree : List Category :=
  [.mk (some "special") none
    [.mk none none
      [.mk none (some [⟨"deep-page", "Deep Page", none⟩]) []]]]

/-- Counterexample to C3 as stated: in the 3-level tree where only the
grandparent category sets a template, the page of the grandchild category
is not built with the grandparent's template — it is never processed at
all (empty log, no file, no element), even though every template loads
successfully. -/
theorem deep_page_never_processed_cex :
    envAllLoad.loadTemplate "special" = some (.map [("body", .str [Fmt.lit "hi"])]) ∧
    isFalsy (.map [("body", .str [Fmt.lit "hi"])]) = false ∧
    runMain envAllLoad deepTree = ⟨[], [], .ok []⟩ :=
  ⟨rfl, rfl, rfl⟩

/-- C3 as amended: the walk reads exactly two levels.  For every run that
completes without an exception, the processed pages (in order, with their
resolved template names) are precisely: pages of each top-level category
under the page's explicit template, else the category's template, else
`"default_page"`; then pages of each immediate subcategory under the
page's explicit template, else the subcategory's, else the parent
category's, else the default.  Pages of deeper-nested categories never
appear (the loop does not recurse further). -/
theorem two_level_resolution (env : Env) (cats : List Category) (els : List Element)
    (h : (runMain env cats).res = .ok els) :
    (runMain env cats).log = specResolvedPages cats := by
  induction cats generalizing els with
  | nil => rfl
  | cons c rest ih =>
    rw [runMain] at h ⊢
    obtain ⟨hlog, ⟨e1, ha⟩, ⟨e2, hb⟩⟩ := seqRun_of_ok _ _ els h
    rw [hlog, runCat_log_of_ok env c e1 ha, ih e2 hb]
    rfl

/-- Witness for the amended C3 at a concrete input (all template loads
missing, so every page is skipped yet still logged): the top-level page
resolves to the category's template, an explicit page template overrides,
and a page of a subcategory that sets nothing inherits the parent
category's template. -/
theorem two_level_resolution_w :
    (runMain ⟨fun _ => none, fun _ => none⟩
      [Category.mk (some "tmplA") (some [⟨"top-page", "Top", none⟩])
        [Category.mk none
          (some [⟨"sub-page", "Sub", some "explicit"⟩, ⟨"sub-page2", "Sub 2", none⟩]) []]]).log =
      [("top-page", "tmplA"), ("sub-page", "explicit"), ("sub-page2", "tmplA")] :=
  two_level_resolution ⟨fun _ => none, fun _ => none⟩
    [Category.mk (some "tmplA") (some [⟨"top-page", "Top", none⟩])
      [Category.mk none
        (some [⟨"sub-page", "Sub", some "explicit"⟩, ⟨"sub-page2", "Sub 2", none⟩]) []]]
    [] rfl

/-- C9: the pipeline is deterministic — two runs over equal inputs (the
same tree definition, template store and document store) produce the same
aggregate document bytes (and in particular byte-identical
`knowledge_base.xml` output when one is produced at all). -/
theorem pipeline_deterministic (env1 env2 : Env) (cats1 cats2 : List Category)
    (henv : env1 = env2) (hcats : cats1 = cats2) :
    aggregateXml env1 cats1 = aggregateXml env2 cats2 := by
  subst henv
  subst hcats
  rfl

/-- Witness for C9 at a concrete input: running the pipeline twice on the
same one-category tree and stores gives identical aggregate output. -/
theorem pipeline_deterministic_w :
    aggregateXml ⟨fun _ => none, fun _ => none⟩
      [Category.mk none (some [⟨"p9", "Page 9", none⟩]) []] =
    aggregateXml ⟨fun _ => none, fun _ => none⟩
      [Category.mk none (some [⟨"p9", "Page 9", none⟩]) []] :=
  pipeline_deterministic ⟨fun _ => none, fun _ => none⟩ ⟨fun _ => none, fun _ => none⟩
    [Category.mk none (some [⟨"p9", "Page 9", none⟩]) []]
    [Category.mk none (some [⟨"p9", "Page 9", none⟩]) []] rfl rfl

end KB
